import Mathlib

/-!
Shallow embedding of the virtual-memory / PMP / address-translation core of
the riscv-ovpsim RISC-V simulator (`src/riscv-ovpsim/source/riscvVM.c`),
together with theorems settling the frozen claims about it.

Machine integers (`Uns64` in the source) are modelled as `Nat` with explicit
wrap-around helpers (`add64`, `sub64`, ...) applied exactly where the C code
relies on two's-complement 64-bit arithmetic.
-/

namespace RiscvVM

/-- 2^64, the modulus of `Uns64` arithmetic. -/
def MOD64 : Nat := 2 ^ 64

/-- 64-bit wrapping addition (`Uns64 +`). -/
def add64 (a b : Nat) : Nat := (a + b) % MOD64

/-- 64-bit wrapping subtraction (`Uns64 -`). -/
def sub64 (a b : Nat) : Nat := (a % MOD64 + (MOD64 - b % MOD64)) % MOD64

/-- 64-bit two's-complement negation (`-x` on `Uns64`). -/
def neg64 (a : Nat) : Nat := (MOD64 - a % MOD64) % MOD64

/-- 64-bit bitwise complement (`~x` on `Uns64`). -/
def complement64 (a : Nat) : Nat := MOD64 - 1 - a % MOD64

/-- `memPriv` read bit `MEM_PRIV_R`. -/
def MEM_PRIV_R : Nat := 1

/-- `memPriv` write bit `MEM_PRIV_W`. -/
def MEM_PRIV_W : Nat := 2

/-- `memPriv` execute bit `MEM_PRIV_X`. -/
def MEM_PRIV_X : Nat := 4

/-- `MEM_PRIV_RW = MEM_PRIV_R|MEM_PRIV_W`. -/
def MEM_PRIV_RW : Nat := 3

/-- `MEM_PRIV_RWX`. -/
def MEM_PRIV_RWX : Nat := 7

/-- Processor modes (`riscvMode`): base modes U/S/M plus virtual VU/VS. -/
inductive Mode where
  | U | S | M | VU | VS
deriving DecidableEq, Repr

/-- `getBaseMode`: strip virtualization, leaving U, S or M. -/
def getBaseMode : Mode → Mode
  | .VU => .U
  | .VS => .S
  | m => m

/-- `modeIsVirtual`: is this a virtual (V=1) mode? -/
def modeIsVirtual : Mode → Bool
  | .VU => true
  | .VS => true
  | _ => false

/-- TLB identities (`riscvTLBId`): HS, VS stage 1, VS stage 2. -/
inductive TLBId where
  | HS | VS1 | VS2
deriving DecidableEq, Repr

/-- The simulated-ASID composite tag (`riscvSimASID`), field view.
    `ASID_HS`/`ASID_VS`/`VMID` are 16-bit values; the rest are single bits. -/
structure SimASID where
  ASID_HS : Nat := 0
  ASID_VS : Nat := 0
  VMID : Nat := 0
  MXR_HS : Bool := false
  SUM_HS : Bool := false
  MXR_VS : Bool := false
  SUM_VS : Bool := false
  S1 : Bool := false
  S2 : Bool := false
deriving DecidableEq, Repr

/-- Pack a `SimASID` into its `u64` view (bit layout of `riscvSimASIDU`). -/
def SimASID.toU64 (s : SimASID) : Nat :=
  s.ASID_HS % 2 ^ 16
  + s.ASID_VS % 2 ^ 16 * 2 ^ 16
  + s.VMID % 2 ^ 16 * 2 ^ 32
  + (if s.MXR_HS then 2 ^ 48 else 0)
  + (if s.SUM_HS then 2 ^ 49 else 0)
  + (if s.MXR_VS then 2 ^ 50 else 0)
  + (if s.SUM_VS then 2 ^ 51 else 0)
  + (if s.S1 then 2 ^ 52 else 0)
  + (if s.S2 then 2 ^ 53 else 0)

/-- A TLB entry (`tlbEntry`).  The range-LUT link and `mapped` bookkeeping of
    the source are not represented; the TLB itself is modelled as a list. -/
structure TLBEntry where
  lowVA : Nat := 0
  highVA : Nat := 0
  PA : Nat := 0
  simASID : SimASID := {}
  tlb : TLBId := .HS
  priv : Nat := 0
  U : Bool := false
  G : Bool := false
  A : Bool := false
  D : Bool := false
  artifact : Bool := false
deriving DecidableEq, Repr

/-- `getEntrySize`: size of the entry's virtual range. -/
def getEntrySize (e : TLBEntry) : Nat := e.highVA - e.lowVA + 1

/-- `getEntryVAtoPA`: VA-to-PA offset (`entry->PA - entry->lowVA`, Uns64). -/
def getEntryVAtoPA (e : TLBEntry) : Nat := sub64 e.PA e.lowVA

/-- `entryHasVMID`: VS1 and VS2 entries carry a VMID tag. -/
def entryHasVMID (e : TLBEntry) : Bool := e.tlb = .VS1 || e.tlb = .VS2

/-- `getEntryASID`: the entry's ASID as recorded in its simulated ASID. -/
def getEntryASID (e : TLBEntry) : Nat :=
  match e.tlb with
  | .HS => e.simASID.ASID_HS
  | .VS1 => e.simASID.ASID_VS
  | .VS2 => 0

/-- `getEntryVMID`: the entry's VMID as recorded in its simulated ASID. -/
def getEntryVMID (e : TLBEntry) : Nat :=
  match e.tlb with
  | .VS1 => e.simASID.VMID
  | .VS2 => e.simASID.VMID
  | .HS => 0

/-- `matchVMID`: entries without a VMID always match; others need equality. -/
def matchVMID (VMID : Nat) (e : TLBEntry) : Bool :=
  !entryHasVMID e || VMID = getEntryVMID e

/-- `matchASID`: global entries always match; others need ASID equality. -/
def matchASID (ASID : Nat) (e : TLBEntry) : Bool :=
  e.G || ASID = getEntryASID e

/-- `getEntryASIDMask`: entry-specific mask over the composite simulated ASID
    (built exactly as the source builds its `riscvSimASID ASIDMask`). -/
def getEntryASIDMask (e : TLBEntry) (mode : Mode) : Nat :=
  let V := modeIsVirtual mode
  let m : SimASID := { MXR_HS := true }
  -- include ASID field only if this entry is not global
  let m := if e.G then m
           else if V then { m with ASID_VS := 2 ^ 16 - 1 }
           else { m with ASID_HS := 2 ^ 16 - 1 }
  -- include SUM field only if user-accessible and in Supervisor mode
  -- (stage 2 entries are always treated as user mode, so SUM is ignored)
  let m := if e.tlb = .VS2 then m
           else if e.U && (getBaseMode mode = .S) then
             { m with SUM_HS := !V, SUM_VS := V }
           else m
  -- include fields required only when V=1
  let m := if V then
             { m with VMID := 2 ^ 16 - 1, MXR_VS := true, S1 := true, S2 := true }
           else m
  m.toU64

/-- Context of processor state consulted by `checkEntryPermission`. -/
structure PermCtx where
  activeTLB : TLBId := .HS
  mstatusMXR : Bool := false
  mstatusSUM : Bool := false
  vsstatusMXR : Bool := false
  vsstatusSUM : Bool := false
  /-- privileged architecture version is >= 1.11 -/
  priv11 : Bool := true
deriving DecidableEq, Repr

/-- `checkEntryPermission`: validate entry access permissions, returning the
    granted privilege set, or 0 (`MEM_PRIV_NONE`) when the requested
    privileges are not all granted. -/
def checkEntryPermission (ctx : PermCtx) (mode : Mode) (e : TLBEntry)
    (requiredPriv : Nat) : Nat :=
  let priv := e.priv
  let MXR := ctx.mstatusMXR
  let SUM := ctx.mstatusSUM
  -- modify MXR and SUM if this is a stage 1 virtual access;
  -- stage 2 accesses are always taken to be U mode
  let MXR := if ctx.activeTLB = .VS1 then MXR || ctx.vsstatusMXR else MXR
  let SUM := if ctx.activeTLB = .VS1 then ctx.vsstatusSUM else SUM
  let mode := if ctx.activeTLB = .VS2 then Mode.U else mode
  -- add read permission if executable and xstatus.MXR=1
  let priv := if priv &&& MEM_PRIV_X ≠ 0 && MXR then priv ||| MEM_PRIV_R else priv
  let priv :=
    if getBaseMode mode = .U then
      -- no access in user mode unless U=1
      if !e.U then 0 else priv
    else if e.U then
      -- no access in supervisor mode if U=1 unless xstatus.SUM=1;
      -- from privileged architecture 1.11, never executable in S mode if U=1
      if !SUM then 0
      else if ctx.priv11 then priv &&& MEM_PRIV_RW
      else priv
    else priv
  if priv &&& requiredPriv = requiredPriv then priv else 0

/-- Page shift (`RISCV_PAGE_SHIFT`). -/
def RISCV_PAGE_SHIFT : Nat := 12

/-- `getPTETableAddress`: table address implied by a PPN. -/
def getPTETableAddress (PPN : Nat) : Nat := PPN <<< RISCV_PAGE_SHIFT

/-- Sv39 PTE `V` field (bit 0). -/
def pteV (pte : Nat) : Nat := pte % 2

/-- Sv39 PTE `priv` field (bits 1..3: R/W/X). -/
def ptePriv (pte : Nat) : Nat := pte / 2 % 8

/-- Sv39 PTE `U` field (bit 4). -/
def pteU (pte : Nat) : Nat := pte / 16 % 2

/-- Sv39 PTE `G` field (bit 5). -/
def pteG (pte : Nat) : Nat := pte / 32 % 2

/-- Sv39 PTE `A` field (bit 6). -/
def pteA (pte : Nat) : Nat := pte / 64 % 2

/-- Sv39 PTE `D` field (bit 7). -/
def pteD (pte : Nat) : Nat := pte / 128 % 2

/-- Sv39 PTE `PPN` field (bits 10..53). -/
def ptePPN (pte : Nat) : Nat := pte / 2 ^ 10 % 2 ^ 44

/-- Set the PTE `A` bit (the walker's `PTE.fields.A = 1`). -/
def pteSetA (pte : Nat) : Nat := pte ||| 64

/-- Set the PTE `D` bit (the walker's `PTE.fields.D = 1`). -/
def pteSetD (pte : Nat) : Nat := pte ||| 128

/-- Sv39 VA `VPN` field, raw 27-bit value (bits 12..38). -/
def sv39VPNRaw (va : Nat) : Nat := va / 2 ^ 12 % 2 ^ 27

/-- Sv39 VA `VPNextend` field, raw 25-bit value (bits 39..63). -/
def sv39VPNExtRaw (va : Nat) : Nat := va / 2 ^ 39 % 2 ^ 25

/-- Interpret an unsigned `w`-bit field value as a signed integer. -/
def toSigned (w : Nat) (n : Nat) : Int :=
  if n < 2 ^ (w - 1) then (n : Int) else (n : Int) - 2 ^ w

/-- `validVA`: the extension field must sign-extend the VPN field. -/
def validVA (VPN VPNextend : Int) : Bool :=
  if VPN ≥ 0 then VPNextend = 0 else VPNextend = -1

/-- `validVA` applied to the Sv39 fields of a virtual address. -/
def sv39ValidVA (va : Nat) : Bool :=
  validVA (toSigned 27 (sv39VPNRaw va)) (toSigned 25 (sv39VPNExtRaw va))

/-- `getSv39VPNi`: 9-bit VPN slice for level `i`, taken from the raw VPN. -/
def getSv39VPNi (vpn i : Nat) : Nat := vpn / 2 ^ (i * 9) % 2 ^ 9

/-- Page-table-walk errors (`pteError`). -/
inductive PteErr where
  | VAEXTEND | READ | WRITE | V0 | R0W1 | LEAF | ALIGN | PRIV | A0 | D0
deriving DecidableEq, Repr

/-- Exceptions the walk error handler can deliver (`riscvException`,
    restricted to the kinds reachable from `handlePTWException`). -/
inductive RiscvException where
  | LoadAccessFault | StoreAMOAccessFault | InstructionAccessFault
  | LoadPageFault | StoreAMOPageFault | InstructionPageFault
  | LoadGuestPageFault | StoreAMOGuestPageFault | InstructionGuestPageFault
deriving DecidableEq, Repr

/-- `originalAccessFault`: access fault matching the original access kind. -/
def originalAccessFault (requiredPriv : Nat) : RiscvException :=
  if requiredPriv = MEM_PRIV_R then .LoadAccessFault
  else if requiredPriv = MEM_PRIV_W then .StoreAMOAccessFault
  else .InstructionAccessFault

/-- `handlePTWException` (exception selection only; the message side effects
    are not modelled): READ/WRITE errors surface as the original access
    fault, everything else as a page fault, guest-flavoured when the stage 2
    TLB is active. -/
def handlePTWException (error : PteErr) (requiredPriv : Nat) (S2 : Bool) :
    RiscvException :=
  match error with
  | .READ => originalAccessFault requiredPriv
  | .WRITE => originalAccessFault requiredPriv
  | _ =>
    if requiredPriv = MEM_PRIV_R then
      if S2 then .LoadGuestPageFault else .LoadPageFault
    else if requiredPriv = MEM_PRIV_W then
      if S2 then .StoreAMOGuestPageFault else .StoreAMOPageFault
    else
      if S2 then .InstructionGuestPageFault else .InstructionPageFault

/-- Context consumed by the Sv39 walker: translation root, hardware-A/D
    configuration, ASID implementation, access kind, permission-check state,
    and the page-table memory seen through the PTW path.  `memRead a = none`
    models a PTW read that fails (`PTWBadAddr`); `memWriteOK a = false`
    models a PTE store failure. -/
structure WalkCtx where
  perm : PermCtx := {}
  /-- result of `getRootTableAddress` for the active TLB -/
  rootAddr : Nat := 0
  updatePTEA : Bool := true
  updatePTED : Bool := true
  /-- `getASIDMask(riscv)`: 0 means ASIDs are not implemented -/
  asidMask : Nat := 2 ^ 16 - 1
  artifactAccess : Bool := false
  memRead : Nat → Option Nat := fun _ => none
  memWriteOK : Nat → Bool := fun _ => true

/-- `getG`: table-entry implied global state (forced when the active TLB is
    VS2 or ASIDs are not implemented). -/
def getG (ctx : WalkCtx) (G : Bool) : Bool :=
  G || ctx.perm.activeTLB = .VS2 || ctx.asidMask = 0

/-- One step of the walk loop body of `tlbLookupSv39`. -/
inductive WalkStep where
  | fault (e : PteErr) (pteAddr : Nat)
  | leaf (pteAddr pte : Nat)
  | descend (pteAddr pte : Nat)
deriving DecidableEq, Repr

/-- Loop body of the Sv39 table walk at level `i`, table address `a`:
    read the PTE, fault on a failed read, `V=0` or reserved `R=0 W=1`,
    stop at a leaf (any of R/W/X set), otherwise descend. -/
def sv39Step (ctx : WalkCtx) (vpn i a : Nat) : WalkStep :=
  let pteAddr := a + getSv39VPNi vpn i * 8
  match ctx.memRead pteAddr with
  | none => .fault .READ pteAddr
  | some pte =>
    if pteV pte = 0 then .fault .V0 pteAddr
    else if ptePriv pte &&& MEM_PRIV_RW = MEM_PRIV_W then .fault .R0W1 pteAddr
    else if ptePriv pte ≠ 0 then .leaf pteAddr pte
    else .descend pteAddr pte

/-- The walk loop of `tlbLookupSv39` from level `i` (source iterates
    `i = 2, 1, 0`): returns the leaf `(level, pteAddr, pte)` or the fault;
    a descend past level 0 is the `LEAF` page fault. -/
def sv39WalkFind (ctx : WalkCtx) (vpn : Nat) : Nat → Nat →
    Except (PteErr × Nat) (Nat × Nat × Nat)
  | 0, a =>
    match sv39Step ctx vpn 0 a with
    | .fault e p => .error (e, p)
    | .leaf p pte => .ok (0, p, pte)
    | .descend p _ => .error (.LEAF, p)
  | i + 1, a =>
    match sv39Step ctx vpn (i + 1) a with
    | .fault e p => .error (e, p)
    | .leaf p pte => .ok (i + 1, p, pte)
    | .descend _ pte => sv39WalkFind ctx vpn i (getPTETableAddress (ptePPN pte))

/-- Outcome of `tlbLookupSv39`: the entry or fault, plus the list of PTE
    writebacks issued (address, value). -/
structure Sv39Out where
  res : Except (PteErr × Nat) TLBEntry
  writes : List (Nat × Nat)
deriving Repr

/-- `tlbLookupSv39`: validate the VA extension, walk the tables, check
    superpage alignment, fill the prospective TLB entry, check permissions,
    update A/D bits and write the PTE back if it changed. -/
def tlbLookupSv39 (ctx : WalkCtx) (mode : Mode) (va : Nat)
    (requiredPriv : Nat) : Sv39Out :=
  if !sv39ValidVA va then ⟨.error (.VAEXTEND, 0), []⟩ else
  match sv39WalkFind ctx (sv39VPNRaw va) 2 ctx.rootAddr with
  | .error e => ⟨.error e, []⟩
  | .ok (i, pteAddr, pte) =>
    let PA := ptePPN pte <<< RISCV_PAGE_SHIFT
    let size := 2 ^ (i * 9 + RISCV_PAGE_SHIFT)
    if PA % size ≠ 0 then ⟨.error (.ALIGN, pteAddr), []⟩ else
    let entry : TLBEntry :=
      { lowVA := va / size * size
        highVA := va / size * size + size - 1
        PA := PA
        tlb := ctx.perm.activeTLB
        priv := ptePriv pte
        U := pteU pte = 1
        G := getG ctx (pteG pte = 1)
        A := pteA pte = 1
        D := pteD pte = 1 }
    if checkEntryPermission ctx.perm mode entry requiredPriv = 0 then
      ⟨.error (.PRIV, pteAddr), []⟩
    else
    -- update entry A/D bits if required: the A bit is set on any access,
    -- the D bit on any write; without hardware support a clear bit faults
    let doWriteA := !entry.A
    let doWriteD := !entry.D && requiredPriv &&& MEM_PRIV_W ≠ 0
    if doWriteA && !ctx.updatePTEA then ⟨.error (.A0, pteAddr), []⟩
    else if doWriteD && !ctx.updatePTED then ⟨.error (.D0, pteAddr), []⟩
    else
    let entry := { entry with A := true, D := entry.D || doWriteD }
    let pte := if doWriteA then pteSetA pte else pte
    let pte := if doWriteD then pteSetD pte else pte
    -- write PTE if it has changed
    if doWriteA || doWriteD then
      -- writes during artifact accesses are suppressed
      if ctx.artifactAccess then ⟨.ok entry, []⟩
      else if ctx.memWriteOK pteAddr then ⟨.ok entry, [(pteAddr, pte)]⟩
      else ⟨.error (.WRITE, pteAddr), [(pteAddr, pte)]⟩
    else ⟨.ok entry, []⟩

/-- Bit `k` of `x ||| 2^k` reads as one. -/
theorem lor_pow_div_mod (x k : Nat) : (x ||| 2 ^ k) / 2 ^ k % 2 = 1 := by
  have h : Nat.testBit (x ||| 2 ^ k) k = true := by
    rw [Nat.testBit_lor, Nat.testBit_two_pow_self, Bool.or_true]
  rw [Nat.testBit_to_div_mod] at h
  simpa using h

/-- Setting bit `k` leaves every other bit position unchanged. -/
theorem lor_pow_div_mod_ne (x j k : Nat) (h : k ≠ j) :
    (x ||| 2 ^ k) / 2 ^ j % 2 = x / 2 ^ j % 2 := by
  have h1 : Nat.testBit (x ||| 2 ^ k) j = Nat.testBit x j := by
    rw [Nat.testBit_lor, Nat.testBit_two_pow_of_ne h, Bool.or_false]
  rw [Nat.testBit_to_div_mod, Nat.testBit_to_div_mod] at h1
  have h2 : (x ||| 2 ^ k) / 2 ^ j % 2 < 2 := Nat.mod_lt _ (by norm_num)
  have h3 : x / 2 ^ j % 2 < 2 := Nat.mod_lt _ (by norm_num)
  simp only [decide_eq_decide] at h1
  omega

theorem pteD_pteSetD (x : Nat) : pteD (pteSetD x) = 1 := by
  have := lor_pow_div_mod x 7
  unfold pteD pteSetD
  norm_num at this ⊢
  exact this

theorem pteA_pteSetA (x : Nat) : pteA (pteSetA x) = 1 := by
  have := lor_pow_div_mod x 6
  unfold pteA pteSetA
  norm_num at this ⊢
  exact this

theorem pteA_pteSetD (x : Nat) : pteA (pteSetD x) = pteA x := by
  have := lor_pow_div_mod_ne x 6 7 (by norm_num)
  unfold pteA pteSetD
  norm_num at this ⊢
  exact this

/-- Mapping constraints for a TLB entry (`tlbMapInfo`). -/
structure TlbMapInfo where
  lowVA : Nat := 0
  highVA : Nat := 0
  priv : Nat := 0
deriving DecidableEq, Repr

/-- Result of `validateTLBEntryPriv`: the surviving entry (if any), whether
    the given entry was deleted from the TLB, and the updated mapping
    privilege (`miP->priv`) when the entry survives. -/
structure ValidateOut where
  entry : Option TLBEntry
  deleted : Bool
  mapPriv : Option Nat
deriving Repr

/-- `validateTLBEntryPriv`: check permissions of a found entry; a write
    through an entry with `D=0` deletes the entry to force a re-walk;
    otherwise the mapping privilege is recorded, with write permission
    removed while the entry is not dirty. -/
def validateTLBEntryPriv (ctx : PermCtx) (mode : Mode)
    (entry? : Option TLBEntry) (requiredPriv : Nat) : ValidateOut :=
  match entry? with
  | none => ⟨none, false, none⟩
  | some entry =>
    let priv := checkEntryPermission ctx mode entry requiredPriv
    if priv = 0 then
      -- specified permissions are inadequate
      ⟨none, false, none⟩
    else if requiredPriv &&& MEM_PRIV_W ≠ 0 && !entry.D then
      -- writing using an entry not marked as dirty: discard the entry
      ⟨none, true, none⟩
    else
      ⟨some entry, false, some (if !entry.D then priv &&& (MEM_PRIV_R ||| MEM_PRIV_X) else priv)⟩

/-- `findTLBEntry`: first entry of the TLB whose range covers `VA` and whose
    VMID and ASID match (the artifact-residue collection of
    `getTLBEntryForRange` is not modelled). -/
def findTLBEntry (VMID ASID : Nat) (tlb : List TLBEntry) (VA : Nat) :
    Option TLBEntry :=
  tlb.find? fun e =>
    e.lowVA ≤ VA && VA ≤ e.highVA && matchVMID VMID e && matchASID ASID e

/-- Outcome of `findOrCreateTLBEntry`: resulting entry, TLB contents after
    the call, exceptions delivered (`riscvTakeMemoryException` calls), and
    the mapping privilege recorded in `miP`. -/
structure OrchOut where
  entry : Option TLBEntry
  tlb : List TLBEntry
  exceptions : List RiscvException
  mapPriv : Option Nat
deriving Repr

/-- `findOrCreateTLBEntry` (with the walk instantiated at Sv39): look up the
    VA in the TLB, validate permissions (possibly deleting a non-dirty entry
    on write), and on a miss walk the page tables, delivering the exception
    of a failed walk (suppressed for artifact accesses) or allocating the
    new entry. -/
def findOrCreateTLBEntry (ctx : WalkCtx) (VMID ASID : Nat)
    (tlb : List TLBEntry) (mode : Mode) (mi : TlbMapInfo) : OrchOut :=
  let VA := mi.lowVA
  let requiredPriv := mi.priv
  -- get any existing entry for this VA and validate its permissions
  let found := findTLBEntry VMID ASID tlb VA
  let v := validateTLBEntryPriv ctx.perm mode found requiredPriv
  let tlb1 := if v.deleted then tlb.erase (found.getD {}) else tlb
  match v.entry with
  | some e => ⟨some e, tlb1, [], v.mapPriv⟩
  | none =>
    -- do table walk
    let out := tlbLookupSv39 ctx mode VA requiredPriv
    match out.res with
    | .error (err, _) =>
      -- handleInvalidAccess: one exception-delivery call (artifact suppressed)
      ⟨none, tlb1,
        if ctx.artifactAccess then []
        else [handlePTWException err requiredPriv (ctx.perm.activeTLB = .VS2)],
        none⟩
    | .ok tmp =>
      -- allocateTLBEntry, then validate permissions of the new entry
      let e := { tmp with artifact := ctx.artifactAccess }
      let tlb2 := e :: tlb1
      let v2 := validateTLBEntryPriv ctx.perm mode (some e) requiredPriv
      let tlb3 := if v2.deleted then tlb2.erase e else tlb2
      ⟨v2.entry, tlb3, [], v2.mapPriv⟩

/-- In `tlbMiss`, `mapTLBEntry` (which installs the domain alias) is invoked
    exactly when `findOrCreateTLBEntry` produced an entry. -/
def tlbMissInstallsAlias (o : OrchOut) : Bool := o.entry.isSome

/-- VMI maximum alias size (`vmiPageMax`, 4 GiB). -/
def vmiPageMax : Nat := 0x100000000

/-- The virtual→physical alias installed by `mapTLBEntry`
    (`vmirtAliasMemoryVM` arguments). -/
structure AliasInstall where
  lowVA : Nat
  highVA : Nat
  /-- combined VA-to-PA offset (Uns64) -/
  VAtoPA : Nat
  /-- low physical address of the alias (`lowVA + VAtoPA`) -/
  lowPA : Nat
  ASIDMask : Nat
  ASID : Nat
deriving DecidableEq, Repr

/-- The range/offset/tag computation of `mapTLBEntry`: cap the stage 1 range
    to the VMI maximum, then, when a stage 2 entry participates, narrow the
    bounds by the stage 2 entry's slack around the translated address, add
    the stage 2 VA-to-PA shift and OR the ASID masks. -/
def mapTLBEntryAlias (VA GPA : Nat) (entry1 : TLBEntry)
    (entry2 : Option TLBEntry) (mode : Mode) (mi : TlbMapInfo) :
    AliasInstall :=
  -- get stage 1 entry details
  let lowVA := entry1.lowVA
  let highVA := entry1.highVA
  let ASIDMask := getEntryASIDMask entry1 mode
  let ASID := entry1.simASID.toU64
  let VAtoPA := getEntryVAtoPA entry1
  -- restrict mapping size to VMI maximum (4Gb)
  let lowVA := if getEntrySize entry1 > vmiPageMax
               then mi.lowVA / vmiPageMax * vmiPageMax else lowVA
  let highVA := if getEntrySize entry1 > vmiPageMax
                then lowVA + vmiPageMax - 1 else highVA
  match entry2 with
  | none =>
    ⟨lowVA, highVA, VAtoPA, add64 lowVA VAtoPA, ASIDMask, ASID⟩
  | some e2 =>
    -- offsets of the translated address from the bounds of both stages
    let loDelta1 := sub64 VA lowVA
    let loDelta2 := sub64 GPA e2.lowVA
    let hiDelta1 := sub64 highVA VA
    let hiDelta2 := sub64 e2.highVA GPA
    -- narrow each bound to the stage 2 entry when it is tighter
    let lowVA := if loDelta1 > loDelta2 then add64 lowVA (loDelta1 - loDelta2)
                 else lowVA
    let highVA := if hiDelta1 > hiDelta2 then sub64 highVA (hiDelta1 - hiDelta2)
                  else highVA
    -- include stage 2 shift to true physical address; merge ASID masks
    let VAtoPA := add64 VAtoPA (getEntryVAtoPA e2)
    let ASIDMask := ASIDMask ||| getEntryASIDMask e2 mode
    ⟨lowVA, highVA, VAtoPA, add64 lowVA VAtoPA, ASIDMask, ASID⟩

/-- Wrapping subtraction agrees with truncated subtraction in range. -/
theorem sub64_eq_of_le (a b : Nat) (h1 : b ≤ a) (h2 : a < MOD64) :
    sub64 a b = a - b := by
  unfold sub64 MOD64 at *
  omega

/-- Wrapping addition agrees with plain addition in range. -/
theorem add64_eq_of_lt (a b : Nat) (h : a + b < MOD64) :
    add64 a b = a + b := by
  unfold add64 MOD64 at *
  omega

/-- Counterexample to C1 as frozen: a 512 GiB stage-1 entry (an Sv48
    top-level leaf) is first capped to the 4 GiB VMI alias maximum, so the
    installed alias does not start at the claimed
    `max(e1.lo, va - (gpa - e2.lo))`. -/
theorem claim_C1_counterexample :
    (mapTLBEntryAlias (2 ^ 32) (2 ^ 32)
        { lowVA := 0, highVA := 2 ^ 39 - 1, PA := 0, tlb := .VS1 }
        (some { lowVA := 0, highVA := 2 ^ 39 - 1, PA := 0, tlb := .VS2 })
        .VS ⟨2 ^ 32, 2 ^ 32 + 7, 1⟩).lowVA ≠
      max 0 (2 ^ 32 - (2 ^ 32 - 0)) := by
  decide

/-- C1 (amended): for a two-stage translation whose stage-1 entry is no
    larger than the 4 GiB VMI alias cap, the installed alias covers
    `[max(e1.lo, va - (gpa - e2.lo)), min(e1.hi, va + (e2.hi - gpa))]`, its
    VA-to-PA offset is the (64-bit) sum of the stage-1 and stage-2 offsets
    and the low address maps through that combined offset, the ASID masks of
    both stages are OR-combined, and the literal example narrows stage-1
    `[VA 0..0xFFF] -> GPA 0x1000` through stage-2
    `[GPA 0..0x1FFFFF] -> PA 0x200000` to `[VA 0, VA 0xFFF] -> PA 0x201000`. -/
theorem claim_C1_mapTLBEntry (VA GPA : Nat) (e1 e2 : TLBEntry) (mode : Mode)
    (mi : TlbMapInfo)
    (hlo1 : e1.lowVA ≤ VA) (hhi1 : VA ≤ e1.highVA)
    (hlo2 : e2.lowVA ≤ GPA) (hhi2 : GPA ≤ e2.highVA)
    (hb1 : e1.highVA < 2 ^ 64) (hb2 : e2.highVA < 2 ^ 64)
    (hcap : getEntrySize e1 ≤ vmiPageMax) :
    (mapTLBEntryAlias VA GPA e1 (some e2) mode mi).lowVA =
      max e1.lowVA (VA - (GPA - e2.lowVA)) ∧
    (mapTLBEntryAlias VA GPA e1 (some e2) mode mi).highVA =
      min e1.highVA (VA + (e2.highVA - GPA)) ∧
    (mapTLBEntryAlias VA GPA e1 (some e2) mode mi).VAtoPA =
      add64 (getEntryVAtoPA e1) (getEntryVAtoPA e2) ∧
    (mapTLBEntryAlias VA GPA e1 (some e2) mode mi).lowPA =
      add64 (mapTLBEntryAlias VA GPA e1 (some e2) mode mi).lowVA
        (add64 (getEntryVAtoPA e1) (getEntryVAtoPA e2)) ∧
    (mapTLBEntryAlias VA GPA e1 (some e2) mode mi).ASIDMask =
      (getEntryASIDMask e1 mode ||| getEntryASIDMask e2 mode) ∧
    ((mapTLBEntryAlias 0 0x1000
        { lowVA := 0, highVA := 0xFFF, PA := 0x1000, tlb := .VS1 }
        (some { lowVA := 0, highVA := 0x1FFFFF, PA := 0x200000, tlb := .VS2 })
        .VS ⟨0, 0xFFF, 1⟩).lowVA = 0 ∧
     (mapTLBEntryAlias 0 0x1000
        { lowVA := 0, highVA := 0xFFF, PA := 0x1000, tlb := .VS1 }
        (some { lowVA := 0, highVA := 0x1FFFFF, PA := 0x200000, tlb := .VS2 })
        .VS ⟨0, 0xFFF, 1⟩).highVA = 0xFFF ∧
     (mapTLBEntryAlias 0 0x1000
        { lowVA := 0, highVA := 0xFFF, PA := 0x1000, tlb := .VS1 }
        (some { lowVA := 0, highVA := 0x1FFFFF, PA := 0x200000, tlb := .VS2 })
        .VS ⟨0, 0xFFF, 1⟩).lowPA = 0x201000) := by
  have hc : ¬ getEntrySize e1 > vmiPageMax := not_lt.mpr hcap
  have hs1 : sub64 VA e1.lowVA = VA - e1.lowVA :=
    sub64_eq_of_le _ _ hlo1 (by unfold MOD64; omega)
  have hs2 : sub64 GPA e2.lowVA = GPA - e2.lowVA :=
    sub64_eq_of_le _ _ hlo2 (by unfold MOD64; omega)
  have hs3 : sub64 e1.highVA VA = e1.highVA - VA :=
    sub64_eq_of_le _ _ hhi1 (by unfold MOD64; omega)
  have hs4 : sub64 e2.highVA GPA = e2.highVA - GPA :=
    sub64_eq_of_le _ _ hhi2 (by unfold MOD64; omega)
  refine ⟨?_, ?_, rfl, rfl, rfl, by decide, by decide, by decide⟩
  · simp only [mapTLBEntryAlias, if_neg hc]
    rw [hs1, hs2]
    by_cases hlt : VA - e1.lowVA > GPA - e2.lowVA
    · rw [if_pos hlt, add64_eq_of_lt _ _ (by unfold MOD64; omega)]
      omega
    · rw [if_neg hlt]
      omega
  · simp only [mapTLBEntryAlias, if_neg hc]
    rw [hs3, hs4]
    by_cases hlt : e1.highVA - VA > e2.highVA - GPA
    · rw [if_pos hlt, sub64_eq_of_le _ _ (by omega) (by unfold MOD64; omega)]
      omega
    · rw [if_neg hlt]
      omega

/-- Witness for C1 (amended): the literal two-stage narrowing example
    instantiates the range formula. -/
theorem claim_C1_witness :
    (mapTLBEntryAlias 0 0x1000
        { lowVA := 0, highVA := 0xFFF, PA := 0x1000, tlb := .VS1 }
        (some { lowVA := 0, highVA := 0x1FFFFF, PA := 0x200000, tlb := .VS2 })
        .VS ⟨0, 0xFFF, 1⟩).lowVA = max 0 (0 - (0x1000 - 0)) :=
  (claim_C1_mapTLBEntry 0 0x1000
    { lowVA := 0, highVA := 0xFFF, PA := 0x1000, tlb := .VS1 }
    { lowVA := 0, highVA := 0x1FFFFF, PA := 0x200000, tlb := .VS2 }
    .VS ⟨0, 0xFFF, 1⟩ (by decide) (by decide) (by decide) (by decide)
    (by decide) (by decide) (by decide)).1

/-- ASID match mode of an invalidation (`matchMode`). -/
inductive MatchMode where
  | ANY | ASID
deriving DecidableEq, Repr

/-- Processor state consulted by the invalidation engine. -/
structure InvalCtx where
  hgatpVMID : Nat := 0
  /-- `getASIDMask(riscv)`: 0 means ASIDs are not implemented -/
  asidMask : Nat := 2 ^ 16 - 1
  /-- current XLEN is 32 (satp.ASID field is 9 bits instead of 16) -/
  xlen32 : Bool := false
deriving DecidableEq, Repr

/-- The decision kernel of `deleteTLBEntryMode`: should this entry be
    deleted by an invalidation with the given match mode and (pre-masked)
    ASID? -/
def deleteTLBEntryModeDeletes (ctx : InvalCtx) (e : TLBEntry)
    (mode : MatchMode) (ASID : Nat) : Bool :=
  if mode = .ANY then
    -- delete entry irrespective of ASID
    true
  else if !matchVMID ctx.hgatpVMID e then
    -- preserve VMID-mapped entry with differing VMID
    false
  else if ctx.asidMask = 0 then
    -- ASID not implemented - all entries are global
    true
  else if !e.G && matchASID ASID e then
    -- ASID-mapped entry with matching ASID
    true
  else
    false

/-- `maskASID`: mask an ASID to the satp ASID field width of the current
    XLEN (9 bits on RV32, 16 bits on RV64), then to the implemented width. -/
def maskASID (ctx : InvalCtx) (ASID : Nat) : Nat :=
  (if ctx.xlen32 then ASID % 2 ^ 9 else ASID % 2 ^ 16) &&& ctx.asidMask

/-- Whether `invalidateAllASID` (an ASID-qualified invalidation) deletes the
    entry: the supplied ASID is masked by `maskASID` before the per-entry
    decision. -/
def invalidateAllASIDDeletes (ctx : InvalCtx) (e : TLBEntry) (ASID : Nat) :
    Bool :=
  deleteTLBEntryModeDeletes ctx e .ASID (maskASID ctx ASID)

/-- PMP configuration entry mode (`pmpcfgMode`). -/
inductive PmpMode where
  | OFF | TOR | NA4 | NAPOT
deriving DecidableEq, Repr

/-- A PMP configuration byte (`pmpcfgElem`). -/
structure PmpCfg where
  priv : Nat := 0
  mode : PmpMode := .OFF
  L : Bool := false
deriving DecidableEq, Repr

/-- PMP state and configuration of the hart. -/
structure PmpSt where
  cfg : Nat → PmpCfg := fun _ => {}
  pmpaddr : Nat → Nat := fun _ => 0
  /-- `configInfo.PMP_grain` -/
  grain : Nat := 0
  /-- `riscv->extBits` (external physical address width) -/
  extBits : Nat := 64
  /-- `configInfo.PMP_registers` -/
  numPMPs : Nat := 16
  artifactAccess : Bool := false

/-- `getEffectivePMPAddr`: PMP address register value adjusted for grain:
    with G>=2 in NAPOT mode the low G-1 bits read as ones; with G>=1
    outside NAPOT mode the low G bits read as zeros. -/
def getEffectivePMPAddr (st : PmpSt) (index : Nat) : Nat :=
  let e := st.cfg index
  let result := st.pmpaddr index
  if st.grain ≥ 2 && e.mode = .NAPOT then
    result ||| (2 ^ (st.grain - 1) - 1)
  else if st.grain ≥ 1 && e.mode ≠ .NAPOT then
    result &&& (MOD64 - 2 ^ st.grain)
  else
    result

/-- `getPMPRegionActive`: OFF is inactive, NA4/NAPOT always active, TOR
    active only when the (effective) address is non-zero. -/
def getPMPRegionActive (st : PmpSt) (e : PmpCfg) (index : Nat) : Bool :=
  if e.mode = .OFF then false
  else if e.mode ≠ .TOR then true
  else getEffectivePMPAddr st index ≠ 0

/-- `getPMPEntryBounds`: bounds of the indexed PMP entry.  NA4 is a 4-byte
    range; NAPOT decodes a naturally-aligned power-of-two range from the
    trailing ones of the shifted address; OFF/TOR use the top-of-range
    form with the low bound masked to the implemented grain. -/
def getPMPEntryBounds (st : PmpSt) (index : Nat) : Nat × Nat :=
  let e := st.cfg index
  let low := getEffectivePMPAddr st index <<< 2
  if e.mode = .NA4 then
    (low, low + 3)
  else if e.mode = .NAPOT then
    let notLow := complement64 (low + 3)
    let mask := sub64 ((notLow &&& neg64 notLow) <<< 1) 1
    (low &&& complement64 mask, (low &&& complement64 mask) ||| mask)
  else
    let high := sub64 low 1
    let low := if index = 0 then 0 else st.pmpaddr (index - 1) <<< 2
    (low &&& neg64 (4 <<< st.grain), high)

/-- The running refinement tuple of `mapPMP`. -/
structure PmpRange where
  lowPA : Nat
  highPA : Nat
  priv : Nat
deriving DecidableEq, Repr

/-- `refinePMPRegionRange`: update the running bounds and privilege with the
    effect of region `index`.  A region containing `PA` overwrites bounds
    and privilege (M mode bypasses `priv` unless the region is locked);
    a region beside `PA` shrinks the running range. -/
def refinePMPRegionRange (st : PmpSt) (mode : Mode) (r : PmpRange)
    (PA : Nat) (index : Nat) : PmpRange :=
  let e := st.cfg index
  if getPMPRegionActive st e index then
    let b := getPMPEntryBounds st index
    if b.1 > b.2 then
      -- ignore TOR region with low bound > high bound
      r
    else if b.1 ≤ PA && PA ≤ b.2 then
      -- match in this region: refine privilege
      { lowPA := b.1, highPA := b.2
        priv := if mode ≠ .M || e.L then e.priv else MEM_PRIV_RWX }
    else if b.1 > PA && b.1 < r.highPA then
      -- remove part of region ABOVE matching address
      { r with highPA := b.1 - 1 }
    else if b.2 < PA && b.2 > r.lowPA then
      -- remove part of region BELOW matching address
      { r with lowPA := b.2 + 1 }
    else
      r
  else
    r

/-- `getAddressMask`: mask of `bits` one bits. -/
def getAddressMask (bits : Nat) : Nat := 2 ^ bits - 1

/-- `pmpLocked`: entry is locked (ignored during artifact accesses). -/
def pmpLocked (st : PmpSt) (index : Nat) : Bool :=
  !st.artifactAccess && (st.cfg index).L

/-- `pmpLockedTOR`: entry is a locked TOR entry (false out of range). -/
def pmpLockedTOR (st : PmpSt) (index : Nat) : Bool :=
  index < st.numPMPs && (st.cfg index).mode = .TOR && pmpLocked st index

/-- `validPMPAddr`: the PMP address register index is implemented. -/
def validPMPAddr (st : PmpSt) (index : Nat) : Bool := index < st.numPMPs

/-- The grain- and width-masking applied to a value written to `pmpaddr`. -/
def maskPMPAddrWrite (st : PmpSt) (newValue : Nat) : Nat :=
  let v := newValue &&& (getAddressMask st.extBits >>> 2)
  if st.grain ≠ 0 then v &&& (MOD64 - 2 ^ (st.grain - 1)) else v

/-- Outcome of `riscvVMWritePMPAddr`: returned value, new PMP state, and the
    indices passed to `invalidatePMPEntry` (in order). -/
structure WritePMPAddrOut where
  result : Nat
  st : PmpSt
  invalidations : List Nat

/-- `riscvVMWritePMPAddr`: mask the new value to the external address width
    and the grain; if the index is valid and the masked value differs from
    the stored one, store it (unless this or the next-TOR entry is locked),
    invalidating the entry's old and new specifications, and return the new
    effective address; otherwise return 0. -/
def riscvVMWritePMPAddr (st : PmpSt) (index : Nat) (newValue : Nat) :
    WritePMPAddrOut :=
  let nv := maskPMPAddrWrite st newValue
  if validPMPAddr st index && st.pmpaddr index ≠ nv then
    if pmpLocked st index then
      -- entry index is locked
      ⟨getEffectivePMPAddr st index, st, []⟩
    else if pmpLockedTOR st (index + 1) then
      -- next entry is a locked TOR entry
      ⟨getEffectivePMPAddr st index, st, []⟩
    else
      let st' := { st with pmpaddr := fun j => if j = index then nv else st.pmpaddr j }
      -- invalidate under the original then the new specification
      ⟨getEffectivePMPAddr st' index, st', [index, index]⟩
  else
    ⟨0, st, []⟩

/-- C6: a faulting translation attempt commits no partial state.  When the
    TLB lookup yields no usable entry and the walk faults (in particular
    when the walker set A or D locally but the PTE writeback failed, the
    `WRITE` error), `findOrCreateTLBEntry` returns no entry, delivers the
    fault through a single exception call, adds no entry to the TLB, and
    `tlbMiss` consequently installs no domain alias. -/
theorem claim_C6_noPartialState (ctx : WalkCtx) (VMID ASID : Nat)
    (tlb : List TLBEntry) (mode : Mode) (mi : TlbMapInfo)
    (err : PteErr) (p : Nat)
    (hmiss : (validateTLBEntryPriv ctx.perm mode
      (findTLBEntry VMID ASID tlb mi.lowVA) mi.priv).entry = none)
    (hfault : (tlbLookupSv39 ctx mode mi.lowVA mi.priv).res = .error (err, p))
    (hart : ctx.artifactAccess = false) :
    (findOrCreateTLBEntry ctx VMID ASID tlb mode mi).entry = none ∧
    (findOrCreateTLBEntry ctx VMID ASID tlb mode mi).exceptions =
      [handlePTWException err mi.priv (ctx.perm.activeTLB = .VS2)] ∧
    (∀ e ∈ (findOrCreateTLBEntry ctx VMID ASID tlb mode mi).tlb, e ∈ tlb) ∧
    tlbMissInstallsAlias (findOrCreateTLBEntry ctx VMID ASID tlb mode mi)
      = false := by
  have ho : findOrCreateTLBEntry ctx VMID ASID tlb mode mi =
      ⟨none,
       if (validateTLBEntryPriv ctx.perm mode
            (findTLBEntry VMID ASID tlb mi.lowVA) mi.priv).deleted
       then tlb.erase ((findTLBEntry VMID ASID tlb mi.lowVA).getD {})
       else tlb,
       [handlePTWException err mi.priv (ctx.perm.activeTLB = .VS2)],
       none⟩ := by
    simp only [findOrCreateTLBEntry]
    rw [hmiss]
    rcases hl : tlbLookupSv39 ctx mode mi.lowVA mi.priv with ⟨res, wr⟩
    rw [hl] at hfault
    simp only at hfault
    subst hfault
    simp [hart]
  rw [ho]
  refine ⟨rfl, rfl, ?_, rfl⟩
  intro e he
  simp only at he
  split at he
  · exact List.erase_subset _ _ he
  · exact he

/-- A concrete scenario for the C6 witness: the walk finds a leaf with
    `A=0 D=0`, sets both bits locally, and the PTE writeback fails. -/
def sv39WriteFailCtx : WalkCtx :=
  { rootAddr := 0x1000
    memRead := fun a => if a = 0x1000 then some 7 else none
    memWriteOK := fun _ => false }

/-- Witness for C6: the failed-writeback scenario installs nothing and
    delivers exactly one exception. -/
theorem claim_C6_witness :
    (findOrCreateTLBEntry sv39WriteFailCtx 0 0 [] .S ⟨0, 0, 2⟩).entry = none ∧
    (findOrCreateTLBEntry sv39WriteFailCtx 0 0 [] .S ⟨0, 0, 2⟩).exceptions =
      [handlePTWException .WRITE 2 (sv39WriteFailCtx.perm.activeTLB = .VS2)] :=
  ⟨(claim_C6_noPartialState sv39WriteFailCtx 0 0 [] .S ⟨0, 0, 2⟩ .WRITE 0x1000
      rfl rfl rfl).1,
   (claim_C6_noPartialState sv39WriteFailCtx 0 0 [] .S ⟨0, 0, 2⟩ .WRITE 0x1000
      rfl rfl rfl).2.1⟩

/-!  ## Invalidation analysis (claim C7)  -/

/-- Counterexample to C7 as frozen: when ASID is not implemented
    (`getASIDMask = 0`), an ASID-qualified invalidation deletes even an
    entry with `G=1`, contradicting the conjunct "an entry with G=1 is not
    removed by any ASID-qualified invalidation". -/
theorem claim_C7_counterexample :
    invalidateAllASIDDeletes { asidMask := 0 } { G := true } 5 = true := by
  decide

/-- C7 (amended): for every ASID-qualified invalidation: an entry whose
    tagged VMID differs from `hgatp.VMID` is preserved; when ASID is
    implemented an entry with `G=1` is never removed; when ASID is not
    implemented the invalidation deletes every VMID-matching entry
    unconditionally; and otherwise a non-global (VMID-matching) entry is
    deleted exactly when its ASID equals the supplied ASID masked to the
    implemented width. -/
theorem claim_C7_invalidateASID (ctx : InvalCtx) (e : TLBEntry) (ASID : Nat) :
    (matchVMID ctx.hgatpVMID e = false →
      invalidateAllASIDDeletes ctx e ASID = false) ∧
    (ctx.asidMask ≠ 0 → e.G = true →
      invalidateAllASIDDeletes ctx e ASID = false) ∧
    (ctx.asidMask = 0 → matchVMID ctx.hgatpVMID e = true →
      invalidateAllASIDDeletes ctx e ASID = true) ∧
    (ctx.asidMask ≠ 0 → matchVMID ctx.hgatpVMID e = true → e.G = false →
      (invalidateAllASIDDeletes ctx e ASID = true ↔
        maskASID ctx ASID = getEntryASID e)) := by
  refine ⟨?_, ?_, ?_, ?_⟩
  · intro hvm
    simp [invalidateAllASIDDeletes, deleteTLBEntryModeDeletes, hvm]
  · intro hmask hg
    simp [invalidateAllASIDDeletes, deleteTLBEntryModeDeletes, hmask, hg,
      matchASID]
  · intro hmask hvm
    simp [invalidateAllASIDDeletes, deleteTLBEntryModeDeletes, hmask, hvm]
  · intro hmask hvm hg
    simp [invalidateAllASIDDeletes, deleteTLBEntryModeDeletes, hmask, hvm, hg,
      matchASID]

/-- Witness for C7 (amended): a non-global HS entry with ASID 3 is deleted
    by an ASID-qualified invalidation with ASID 3. -/
theorem claim_C7_witness :
    invalidateAllASIDDeletes {} { simASID := { ASID_HS := 3 } } 3 = true ↔
      maskASID {} 3 = getEntryASID { simASID := { ASID_HS := 3 } } :=
  (claim_C7_invalidateASID {} { simASID := { ASID_HS := 3 } } 3).2.2.2
    (by decide) (by decide) rfl

/-!  ## Permission-check analysis (claim C3)  -/

/-- The effective MXR bit used by `checkEntryPermission`: for a VS1 access
    the VS bit is OR-ed in, otherwise the HS bit applies. -/
def mxrEff (ctx : PermCtx) : Bool :=
  if ctx.activeTLB = .VS1 then ctx.mstatusMXR || ctx.vsstatusMXR
  else ctx.mstatusMXR

/-- The effective SUM bit used by `checkEntryPermission`: for a VS1 access
    the VS bit replaces the HS bit. -/
def sumEff (ctx : PermCtx) : Bool :=
  if ctx.activeTLB = .VS1 then ctx.vsstatusSUM else ctx.mstatusSUM

/-- The effective access mode used by `checkEntryPermission`: stage 2
    accesses are always taken to be U mode. -/
def effAccessMode (ctx : PermCtx) (mode : Mode) : Mode :=
  if ctx.activeTLB = .VS2 then .U else mode

/-- Scalar core of `checkEntryPermission` (proof device). -/
def cepCore (MXR SUM p11 : Bool) (base : Mode) (priv : Nat) (U : Bool)
    (rp : Nat) : Nat :=
  let priv := if priv &&& MEM_PRIV_X ≠ 0 && MXR then priv ||| MEM_PRIV_R else priv
  let priv :=
    if base = .U then
      if !U then 0 else priv
    else if U then
      if !SUM then 0
      else if p11 then priv &&& MEM_PRIV_RW
      else priv
    else priv
  if priv &&& rp = rp then priv else 0

theorem checkEntryPermission_eq_core (ctx : PermCtx) (mode : Mode)
    (e : TLBEntry) (rp : Nat) :
    checkEntryPermission ctx mode e rp =
      cepCore (mxrEff ctx) (sumEff ctx) ctx.priv11
        (getBaseMode (effAccessMode ctx mode)) e.priv e.U rp := by
  rcases ctx with ⟨atlb, mxr, sum, vmxr, vsum, p11⟩
  cases atlb <;> rfl

theorem cepCore_gate (MXR SUM p11 : Bool) (base : Mode) (priv : Nat)
    (U : Bool) (rp : Nat) :
    cepCore MXR SUM p11 base priv U rp =
      if cepCore MXR SUM p11 base priv U 0 &&& rp = rp
      then cepCore MXR SUM p11 base priv U 0 else 0 := by
  simp [cepCore]

theorem cepCore_mxr (SUM p11 : Bool) (base : Mode) (priv : Nat) (U : Bool)
    (hp : priv < 8) (hx : priv &&& MEM_PRIV_X ≠ 0)
    (hnz : cepCore true SUM p11 base priv U 0 ≠ 0) :
    cepCore true SUM p11 base priv U 0 &&& MEM_PRIV_R = MEM_PRIV_R := by
  cases base <;> cases SUM <;> cases p11 <;> cases U <;>
    interval_cases priv <;> revert hx hnz <;> decide

theorem cepCore_umode (MXR SUM p11 : Bool) (priv : Nat) (rp : Nat) :
    cepCore MXR SUM p11 .U priv false rp = 0 := by
  rw [cepCore_gate]
  have h0 : cepCore MXR SUM p11 .U priv false 0 = 0 := by
    simp [cepCore]
  rw [h0]
  simp

theorem cepCore_smode (MXR SUM p11 : Bool) (priv : Nat) (rp : Nat)
    (hp : priv < 8) :
    (SUM = false → cepCore MXR SUM p11 .S priv true rp = 0) ∧
    (p11 = true → cepCore MXR SUM p11 .S priv true rp &&& MEM_PRIV_X = 0) := by
  constructor
  · rintro rfl
    rw [cepCore_gate]
    have h0 : cepCore MXR false p11 .S priv true 0 = 0 := by
      cases MXR <;> cases p11 <;> interval_cases priv <;> decide
    rw [h0]
    simp
  · rintro rfl
    rw [cepCore_gate]
    have h0 : cepCore MXR SUM true .S priv true 0 &&& MEM_PRIV_X = 0 := by
      cases MXR <;> cases SUM <;> interval_cases priv <;> decide
    split
    · exact h0
    · decide

/-- C3: permission checking of a prospective entry.  (1) The access succeeds
    (returns a non-empty privilege set) exactly when the requested privilege
    bits are a subset of the granted ones; (2) whenever the entry is
    executable and the identity-appropriate MXR bit is set, any non-empty
    grant includes read permission; (3) in effective U mode access is denied
    unless the entry's U bit is set; (4) in effective S mode an entry with
    U=1 is denied unless SUM=1, and under privileged architecture >= 1.11
    execute permission is removed even when SUM=1; (5) stage-2 (VS2) checks
    treat the access mode as U. -/
theorem claim_C3_checkEntryPermission (ctx : PermCtx) (mode : Mode)
    (e : TLBEntry) (requiredPriv : Nat) (hp : e.priv < 8) :
    (checkEntryPermission ctx mode e requiredPriv =
      if checkEntryPermission ctx mode e 0 &&& requiredPriv = requiredPriv
      then checkEntryPermission ctx mode e 0 else 0) ∧
    (e.priv &&& MEM_PRIV_X ≠ 0 → mxrEff ctx = true →
      checkEntryPermission ctx mode e 0 ≠ 0 →
      checkEntryPermission ctx mode e 0 &&& MEM_PRIV_R = MEM_PRIV_R) ∧
    (getBaseMode (effAccessMode ctx mode) = .U → e.U = false →
      checkEntryPermission ctx mode e requiredPriv = 0) ∧
    (getBaseMode (effAccessMode ctx mode) = .S → e.U = true →
      (sumEff ctx = false → checkEntryPermission ctx mode e requiredPriv = 0) ∧
      (ctx.priv11 = true →
        checkEntryPermission ctx mode e requiredPriv &&& MEM_PRIV_X = 0)) ∧
    (ctx.activeTLB = .VS2 → ∀ m, checkEntryPermission ctx mode e requiredPriv
      = checkEntryPermission ctx m e requiredPriv) := by
  refine ⟨?_, ?_, ?_, ?_, ?_⟩
  · rw [checkEntryPermission_eq_core, checkEntryPermission_eq_core]
    exact cepCore_gate _ _ _ _ _ _ _
  · intro hx hm hnz
    rw [checkEntryPermission_eq_core] at hnz ⊢
    rw [hm] at hnz ⊢
    exact cepCore_mxr _ _ _ _ _ hp hx hnz
  · intro hb hU
    rw [checkEntryPermission_eq_core, hb, hU]
    exact cepCore_umode _ _ _ _ _
  · intro hb hU
    constructor
    · intro hs
      rw [checkEntryPermission_eq_core, hb, hU, hs]
      exact (cepCore_smode _ _ _ _ _ hp).1 rfl
    · intro h11
      rw [checkEntryPermission_eq_core, hb, hU, h11]
      exact (cepCore_smode _ _ _ _ _ hp).2 rfl
  · intro hv m
    rw [checkEntryPermission_eq_core, checkEntryPermission_eq_core]
    simp [effAccessMode, hv]

/-- Witness for C3: the subset law instantiated at a concrete executable
    user page accessed for read in U mode. -/
theorem claim_C3_witness :
    checkEntryPermission {} .U { priv := 7, U := true } 1 =
      if checkEntryPermission {} .U { priv := 7, U := true } 0 &&& 1 = 1
      then checkEntryPermission {} .U { priv := 7, U := true } 0 else 0 :=
  (claim_C3_checkEntryPermission {} .U { priv := 7, U := true } 1
    (by decide)).1

/-!  ## Page-table-walk analysis (claims C2, C5)  -/

/-- Is this exception one of the (guest or host) page faults? -/
def RiscvException.isPageFault : RiscvException → Bool
  | .LoadPageFault | .StoreAMOPageFault | .InstructionPageFault => true
  | .LoadGuestPageFault | .StoreAMOGuestPageFault | .InstructionGuestPageFault => true
  | _ => false

/-- The walk loop never produces a `VAEXTEND` error: that error arises only
    from the extension check performed before the loop. -/
theorem sv39WalkFind_ne_VAEXTEND (ctx : WalkCtx) (vpn : Nat) :
    ∀ i a p, sv39WalkFind ctx vpn i a ≠ .error (.VAEXTEND, p) := by
  intro i
  induction i with
  | zero =>
    intro a p
    simp only [sv39WalkFind, sv39Step]
    rcases h : ctx.memRead (a + getSv39VPNi vpn 0 * 8) with _ | pte <;>
      simp only [h]
    · simp
    · by_cases h1 : pteV pte = 0
      · simp [h1]
      · by_cases h2 : ptePriv pte &&& MEM_PRIV_RW = MEM_PRIV_W
        · simp [h1, h2]
        · by_cases h3 : ptePriv pte ≠ 0 <;> simp [h1, h2, h3]
  | succ i ih =>
    intro a p
    simp only [sv39WalkFind, sv39Step]
    rcases h : ctx.memRead (a + getSv39VPNi vpn (i + 1) * 8) with _ | pte <;>
      simp only [h]
    · simp
    · by_cases h1 : pteV pte = 0
      · simp [h1]
      · by_cases h2 : ptePriv pte &&& MEM_PRIV_RW = MEM_PRIV_W
        · simp [h1, h2]
        · by_cases h3 : ptePriv pte ≠ 0
          · simp [h1, h2, h3]
          · rw [if_neg h1, if_neg h2, if_neg h3]
            exact ih _ p

/-- `sv39ValidVA` restated over the raw (unsigned) field values. -/
theorem sv39ValidVA_iff_natCond (va : Nat) :
    sv39ValidVA va = true ↔
      (if sv39VPNRaw va < 2 ^ 26 then sv39VPNExtRaw va = 0
       else sv39VPNExtRaw va = 2 ^ 25 - 1) := by
  have h27 : sv39VPNRaw va < 2 ^ 27 := Nat.mod_lt _ (by norm_num)
  have h25 : sv39VPNExtRaw va < 2 ^ 25 := Nat.mod_lt _ (by norm_num)
  unfold sv39ValidVA validVA toSigned
  by_cases h : sv39VPNRaw va < 2 ^ 26
  · rw [if_pos h, if_pos (show sv39VPNRaw va < 2 ^ (27 - 1) from h),
      if_pos (show (0:Int) ≤ (sv39VPNRaw va : Int) from Int.ofNat_nonneg _)]
    by_cases h0 : sv39VPNExtRaw va < 2 ^ (25 - 1)
    · rw [if_pos h0]
      simp only [decide_eq_true_eq]
      omega
    · rw [if_neg h0]
      simp only [decide_eq_true_eq]
      omega
  · rw [if_neg h, if_neg (show ¬ sv39VPNRaw va < 2 ^ (27 - 1) from h),
      if_neg (show ¬ (0:Int) ≤ (sv39VPNRaw va : Int) - 2 ^ 27 by
        push_neg
        have : (sv39VPNRaw va : Int) < 2 ^ 27 := by exact_mod_cast h27
        omega)]
    by_cases h0 : sv39VPNExtRaw va < 2 ^ (25 - 1)
    · rw [if_pos h0]
      simp only [decide_eq_true_eq]
      constructor
      · intro hc
        exfalso
        have : (0:Int) ≤ (sv39VPNExtRaw va : Int) := Int.ofNat_nonneg _
        omega
      · intro hc
        exfalso
        have h0' : sv39VPNExtRaw va < 2 ^ 24 := h0
        omega
    · rw [if_neg h0]
      simp only [decide_eq_true_eq]
      have h0' : ¬ sv39VPNExtRaw va < 2 ^ 24 := h0
      omega

/-- The Sv39 extension check passes exactly when the upper virtual-address
    bits (bits 63..39) are the sign extension of VA bit 38. -/
theorem sv39ValidVA_iff_signExt (va : Nat) (hva : va < 2 ^ 64) :
    sv39ValidVA va = true ↔
      va / 2 ^ 39 = (if Nat.testBit va 38 then 2 ^ 25 - 1 else 0) := by
  rw [sv39ValidVA_iff_natCond, Nat.testBit_to_div_mod]
  have hx : sv39VPNRaw va / 2 ^ 26 = va / 2 ^ 38 % 2 := by
    unfold sv39VPNRaw
    rw [show (2:Nat) ^ 27 = 2 ^ 26 * 2 by norm_num, Nat.mod_mul_right_div_self,
      Nat.div_div_eq_div_mul]
    norm_num
  have hy : sv39VPNExtRaw va = va / 2 ^ 39 := by
    unfold sv39VPNExtRaw
    have : va / 2 ^ 39 < 2 ^ 25 := Nat.div_lt_of_lt_mul (by omega)
    omega
  have h27 : sv39VPNRaw va < 2 ^ 27 := Nat.mod_lt _ (by norm_num)
  by_cases hb : va / 2 ^ 38 % 2 = 1
  · have hxb : ¬ sv39VPNRaw va < 2 ^ 26 := by omega
    have hcond : decide (va / 2 ^ 38 % 2 = 1) = true := by
      rw [decide_eq_true_eq]
      exact hb
    rw [if_neg hxb, hy, if_pos hcond]
  · have hxb : sv39VPNRaw va < 2 ^ 26 := by omega
    have hcond : ¬ decide (va / 2 ^ 38 % 2 = 1) = true := by
      rw [decide_eq_true_eq]
      exact hb
    rw [if_pos hxb, hy, if_neg hcond]

set_option maxHeartbeats 1000000 in
/-- A lookup whose VA passes the extension check never reports `VAEXTEND`. -/
theorem tlbLookupSv39_valid_ne_VAEXTEND (ctx : WalkCtx) (mode : Mode)
    (va rp : Nat) (h : sv39ValidVA va = true) :
    ∀ p, (tlbLookupSv39 ctx mode va rp).res ≠ .error (.VAEXTEND, p) := by
  intro p
  unfold tlbLookupSv39
  simp only [h, Bool.not_true, Bool.false_eq_true, if_false]
  rcases hw : sv39WalkFind ctx (sv39VPNRaw va) 2 ctx.rootAddr with ⟨e, q⟩ | ⟨i, addr, pte⟩
  · intro hres
    simp only at hres
    have hne := sv39WalkFind_ne_VAEXTEND ctx (sv39VPNRaw va) 2 ctx.rootAddr p
    rw [hw] at hne
    simp at hres
    obtain ⟨rfl, rfl⟩ := hres
    exact hne rfl
  · intro hres
    simp only at hres
    repeat' split at hres
    all_goals exact absurd hres (by simp)

/-- A lookup whose VA fails the extension check faults immediately with
    `VAEXTEND`, touching no page-table memory. -/
theorem tlbLookupSv39_invalid (ctx : WalkCtx) (mode : Mode) (va rp : Nat)
    (h : sv39ValidVA va = false) :
    tlbLookupSv39 ctx mode va rp = ⟨.error (.VAEXTEND, 0), []⟩ := by
  unfold tlbLookupSv39
  rw [h]
  rfl

/-- A concrete Sv39 page-table memory: root table at `0x1000` with 1 GiB
    read-only leaf PTEs for the top positive and top negative VAs. -/
def sv39ExampleCtx : WalkCtx :=
  { rootAddr := 0x1000
    memRead := fun a =>
      if a = 0x17F8 then some 0x100000C3
      else if a = 0x1800 then some 0x100000C3
      else none }

/-- C2: an Sv39 walk rejects with a `VAEXTEND` page fault exactly when the
    upper VA bits are not a correct sign-extension of VA bit 38, and the
    rejection happens for every page-table memory (so before any page-table
    memory is read) with no PTE writeback; VA `0x0000_003F_FFFF_FFFF` and VA
    `0xFFFF_FFC0_0000_0000` pass the check and can translate, while VA
    `0x0000_0040_0000_0000` faults with `VAEXTEND` under every context, a
    fault delivered as a page fault. -/
theorem claim_C2_sv39VAExtension (ctx : WalkCtx) (mode : Mode)
    (va requiredPriv : Nat) (hva : va < 2 ^ 64) :
    ((tlbLookupSv39 ctx mode va requiredPriv).res = .error (.VAEXTEND, 0) ↔
      ¬ va / 2 ^ 39 = (if Nat.testBit va 38 then 2 ^ 25 - 1 else 0)) ∧
    (sv39ValidVA va = false →
      tlbLookupSv39 ctx mode va requiredPriv = ⟨.error (.VAEXTEND, 0), []⟩) ∧
    (tlbLookupSv39 ctx mode 0x4000000000 requiredPriv =
      ⟨.error (.VAEXTEND, 0), []⟩) ∧
    (∃ e, (tlbLookupSv39 sv39ExampleCtx .S 0x3FFFFFFFFF MEM_PRIV_R).res = .ok e) ∧
    (∃ e, (tlbLookupSv39 sv39ExampleCtx .S 0xFFFFFFC000000000 MEM_PRIV_R).res = .ok e) ∧
    (∀ S2, (handlePTWException .VAEXTEND requiredPriv S2).isPageFault = true) := by
  refine ⟨?_, ?_, ?_, ?_, ?_, ?_⟩
  · constructor
    · intro hres
      rw [← sv39ValidVA_iff_signExt va hva]
      intro hv
      exact tlbLookupSv39_valid_ne_VAEXTEND ctx mode va requiredPriv hv 0 hres
    · intro hns
      have hf : sv39ValidVA va = false := by
        rcases hcase : sv39ValidVA va with _ | _
        · rfl
        · exact absurd ((sv39ValidVA_iff_signExt va hva).1 hcase) hns
      rw [tlbLookupSv39_invalid ctx mode va requiredPriv hf]
  · intro hf
    exact tlbLookupSv39_invalid ctx mode va requiredPriv hf
  · exact tlbLookupSv39_invalid ctx mode 0x4000000000 requiredPriv (by decide)
  · exact ⟨_, rfl⟩
  · exact ⟨_, rfl⟩
  · intro S2
    simp only [handlePTWException]
    split_ifs <;> cases S2 <;> rfl

/-- Witness for C2: the top-positive boundary VA `0x0000_0040_0000_0000`
    faults with `VAEXTEND` in a concrete context. -/
theorem claim_C2_witness :
    tlbLookupSv39 sv39ExampleCtx .S 0x4000000000 MEM_PRIV_R =
      ⟨.error (.VAEXTEND, 0), []⟩ :=
  (claim_C2_sv39VAExtension sv39ExampleCtx .S 0x4000000000 MEM_PRIV_R
    (by norm_num)).2.2.1

/-- C5: at each level of an Sv39 walk the walker behaves exactly as
    specified: a PTE with `V=0` raises a page fault; a PTE with `R=0` and
    `W=1` raises a (reserved) page fault; a PTE with any of R/W/X set is the
    leaf and terminates the descent; otherwise the walker descends one
    level; if no leaf has been found after the deepest level (level 0) a
    page fault is raised; and the `V0`/`R0W1`/`LEAF` errors are delivered
    as page faults. -/
theorem claim_C5_sv39WalkLevels (ctx : WalkCtx) (vpn i a pte : Nat)
    (hread : ctx.memRead (a + getSv39VPNi vpn i * 8) = some pte) :
    (pteV pte = 0 →
      sv39WalkFind ctx vpn i a = .error (.V0, a + getSv39VPNi vpn i * 8)) ∧
    (pteV pte ≠ 0 → ptePriv pte &&& MEM_PRIV_RW = MEM_PRIV_W →
      sv39WalkFind ctx vpn i a = .error (.R0W1, a + getSv39VPNi vpn i * 8)) ∧
    (pteV pte ≠ 0 → ptePriv pte &&& MEM_PRIV_RW ≠ MEM_PRIV_W →
      ptePriv pte ≠ 0 →
      sv39WalkFind ctx vpn i a = .ok (i, a + getSv39VPNi vpn i * 8, pte)) ∧
    (∀ i', i = i' + 1 → pteV pte ≠ 0 → ptePriv pte = 0 →
      sv39WalkFind ctx vpn i a =
        sv39WalkFind ctx vpn i' (getPTETableAddress (ptePPN pte))) ∧
    (i = 0 → pteV pte ≠ 0 → ptePriv pte = 0 →
      sv39WalkFind ctx vpn i a = .error (.LEAF, a + getSv39VPNi vpn i * 8)) ∧
    (∀ rp S2, rp = MEM_PRIV_R ∨ rp = MEM_PRIV_W ∨ rp = MEM_PRIV_X →
      (handlePTWException .V0 rp S2).isPageFault = true ∧
      (handlePTWException .R0W1 rp S2).isPageFault = true ∧
      (handlePTWException .LEAF rp S2).isPageFault = true) := by
  refine ⟨?_, ?_, ?_, ?_, ?_, ?_⟩
  · intro h1
    cases i <;> simp [sv39WalkFind, sv39Step, hread, h1]
  · intro h1 h2
    cases i <;> simp [sv39WalkFind, sv39Step, hread, h1, h2]
  · intro h1 h2 h3
    cases i <;> simp [sv39WalkFind, sv39Step, hread, h1, h2, h3]
  · rintro i' rfl h1 h2
    simp [sv39WalkFind, sv39Step, hread, h1, h2, MEM_PRIV_RW, MEM_PRIV_W]
  · rintro rfl h1 h2
    simp [sv39WalkFind, sv39Step, hread, h1, h2, MEM_PRIV_RW, MEM_PRIV_W]
  · rintro rp S2 (rfl | rfl | rfl) <;> cases S2 <;>
      refine ⟨by decide, by decide, by decide⟩

set_option maxHeartbeats 1000000 in
/-- On a successful write-access walk whose leaf PTE has D=0, exactly one
    PTE writeback is performed, storing the PTE with the D bit set (and the
    A bit set when it was clear). -/
theorem tlbLookupSv39_write_D0 (ctx : WalkCtx) (mode : Mode)
    (va requiredPriv i addr pte : Nat)
    (hw : requiredPriv &&& MEM_PRIV_W ≠ 0)
    (hart : ctx.artifactAccess = false)
    (hwalk : sv39WalkFind ctx (sv39VPNRaw va) 2 ctx.rootAddr = .ok (i, addr, pte))
    (hD0 : pteD pte = 0)
    (ent : TLBEntry)
    (hok : (tlbLookupSv39 ctx mode va requiredPriv).res = .ok ent) :
    (tlbLookupSv39 ctx mode va requiredPriv).writes =
      [(addr, pteSetD (if pteA pte = 1 then pte else pteSetA pte))] := by
  have hv : sv39ValidVA va = true := by
    rcases hcase : sv39ValidVA va with _ | _
    · rw [tlbLookupSv39_invalid ctx mode va requiredPriv hcase] at hok
      simp at hok
    · rfl
  rcases ho : tlbLookupSv39 ctx mode va requiredPriv with ⟨res, wr⟩
  rw [ho] at hok
  simp only at hok
  simp only
  unfold tlbLookupSv39 at ho
  simp only [hv, Bool.not_true, Bool.false_eq_true, if_false] at ho
  rw [hwalk] at ho
  by_cases hA : pteA pte = 1
  · simp only [hD0, hart, hw, hA] at ho
    simp only [hA, if_pos]
    simp at ho
    repeat' split at ho
    all_goals injection ho with h1 h2
    all_goals subst h1
    all_goals subst h2
    all_goals try (exact Except.noConfusion hok)
    all_goals simp
  · simp only [hD0, hart, hw, hA] at ho
    rw [if_neg hA]
    simp at ho
    repeat' split at ho
    all_goals injection ho with h1 h2
    all_goals subst h1
    all_goals subst h2
    all_goals try (exact Except.noConfusion hok)
    all_goals simp

/-- A concrete page-table memory for the C4 witness: a level-2 leaf at the
    root table with `V=1 R=1 W=1 A=1 D=0`. -/
def sv39WriteCtx : WalkCtx :=
  { rootAddr := 0x1000
    memRead := fun a => if a = 0x1000 then some 71 else none }

/-- C4: a write access through a translation with D=0 under hardware
    D-update.  On a TLB hit, a cached entry with D=0 and adequate
    permissions is deleted (forcing a fresh walk); the fresh walk, when it
    succeeds, performs exactly one PTE writeback, which stores the PTE with
    D=1 and A=1 (setting A when it was clear) — so one and only one PTE
    writeback occurs for the whole access. -/
theorem claim_C4_writeD0 (ctx : WalkCtx) (mode : Mode) (e : TLBEntry)
    (va requiredPriv i addr pte : Nat)
    (hw : requiredPriv &&& MEM_PRIV_W ≠ 0)
    (hart : ctx.artifactAccess = false) :
    (e.D = false → checkEntryPermission ctx.perm mode e requiredPriv ≠ 0 →
      validateTLBEntryPriv ctx.perm mode (some e) requiredPriv =
        ⟨none, true, none⟩) ∧
    (sv39WalkFind ctx (sv39VPNRaw va) 2 ctx.rootAddr = .ok (i, addr, pte) →
      pteD pte = 0 →
      (∃ ent, (tlbLookupSv39 ctx mode va requiredPriv).res = .ok ent) →
      (tlbLookupSv39 ctx mode va requiredPriv).writes =
        [(addr, pteSetD (if pteA pte = 1 then pte else pteSetA pte))] ∧
      pteD (pteSetD (if pteA pte = 1 then pte else pteSetA pte)) = 1 ∧
      pteA (pteSetD (if pteA pte = 1 then pte else pteSetA pte)) = 1) := by
  constructor
  · intro hD hperm
    simp [validateTLBEntryPriv, hD, hperm, hw]
  · rintro hwalk hD0 ⟨ent, hok⟩
    refine ⟨tlbLookupSv39_write_D0 ctx mode va requiredPriv i addr pte hw
      hart hwalk hD0 ent hok, pteD_pteSetD _, ?_⟩
    by_cases hA : pteA pte = 1
    · rw [if_pos hA, pteA_pteSetD]
      exact hA
    · rw [if_neg hA, pteA_pteSetD, pteA_pteSetA]

/-- Witness for C4: the concrete D=0 write scenario — the cached-entry
    deletion and the single writeback storing A=1, D=1. -/
theorem claim_C4_witness :
    (validateTLBEntryPriv {} .S (some { priv := 3, D := false }) 2 =
      ⟨none, true, none⟩) ∧
    (tlbLookupSv39 sv39WriteCtx .S 0 2).writes =
      [(0x1000, pteSetD (if pteA 71 = 1 then 71 else pteSetA 71))] :=
  ⟨(claim_C4_writeD0 sv39WriteCtx .S { priv := 3, D := false } 0 2 2 0x1000 71
      (by decide) rfl).1 rfl (by decide),
   ((claim_C4_writeD0 sv39WriteCtx .S { priv := 3, D := false } 0 2 2 0x1000 71
      (by decide) rfl).2 rfl (by decide) ⟨_, rfl⟩).1⟩

/-- Witness for C5: a concrete level-1 pointer PTE descends to level 0. -/
theorem claim_C5_witness :
    sv39WalkFind { memRead := fun q => if q = 8 then some (1 + 1024) else none }
        0 1 8 = sv39WalkFind
          { memRead := fun q => if q = 8 then some (1 + 1024) else none }
          0 0 (getPTETableAddress (ptePPN (1 + 1024))) :=
  ((claim_C5_sv39WalkLevels
    { memRead := fun q => if q = 8 then some (1 + 1024) else none }
    0 1 8 (1 + 1024) (by decide)).2.2.2.1) 0 rfl (by decide) (by decide)

end RiscvVM

namespace RiscvVM

/-- Number of trailing one bits of a natural number. -/
def trailingOnes : Nat → Nat
  | 0 => 0
  | n + 1 =>
    if (n + 1) % 2 = 1 then trailingOnes ((n + 1) / 2) + 1 else 0
decreasing_by
  omega

theorem two_mul_add_one_mod (x Y : Nat) (hY : 0 < Y) :
    (2 * x + 1) % (2 * Y) = 2 * (x % Y) + 1 := by
  have h1 : 2 * x % (2 * Y) = 2 * (x % Y) := Nat.mul_mod_mul_left 2 x Y
  have h2 : x % Y < Y := Nat.mod_lt x hY
  rw [Nat.add_mod, h1, Nat.mod_eq_of_lt (show 1 < 2 * Y by omega),
    Nat.mod_eq_of_lt (by omega)]

theorem trailingOnes_spec : ∀ a : Nat,
    a % 2 ^ (trailingOnes a + 1) = 2 ^ (trailingOnes a) - 1 := by
  intro a
  induction a using Nat.strong_induction_on with
  | _ a ih =>
    rcases a with _ | n
    · simp [trailingOnes]
    · rw [trailingOnes]
      by_cases hodd : (n + 1) % 2 = 1
      · rw [if_pos hodd]
        have ih2 := ih ((n + 1) / 2) (by omega)
        have hpos : (0:Nat) < 2 ^ (trailingOnes ((n + 1) / 2) + 1) :=
          Nat.pos_pow_of_pos _ (by norm_num)
        have hsplit : n + 1 = 2 * ((n + 1) / 2) + 1 := by omega
        have hpow : (2:Nat) ^ (trailingOnes ((n + 1) / 2) + 1 + 1) =
            2 * 2 ^ (trailingOnes ((n + 1) / 2) + 1) := by ring
        have hpow2 : (2:Nat) ^ (trailingOnes ((n + 1) / 2) + 1) =
            2 * 2 ^ (trailingOnes ((n + 1) / 2)) := by ring
        calc (n + 1) % 2 ^ (trailingOnes ((n + 1) / 2) + 1 + 1)
            = (2 * ((n + 1) / 2) + 1) % (2 * 2 ^ (trailingOnes ((n + 1) / 2) + 1)) := by
              rw [← hsplit, ← hpow]
          _ = 2 * ((n + 1) / 2 % 2 ^ (trailingOnes ((n + 1) / 2) + 1)) + 1 :=
              two_mul_add_one_mod _ _ hpos
          _ = 2 * (2 ^ (trailingOnes ((n + 1) / 2)) - 1) + 1 := by rw [ih2]
          _ = 2 ^ (trailingOnes ((n + 1) / 2) + 1) - 1 := by
              have : (0:Nat) < 2 ^ (trailingOnes ((n + 1) / 2)) :=
                Nat.pos_pow_of_pos _ (by norm_num)
              omega
      · rw [if_neg hodd]
        simp only [pow_one, pow_zero]
        omega


theorem land_bit (a b x y : Nat) (hx : x < 2) (hy : y < 2) :
    (2 * a + x) &&& (2 * b + y) = 2 * (a &&& b) + (x &&& y) := by
  have hl : x &&& y < 2 := by interval_cases x <;> interval_cases y <;> decide
  apply Nat.eq_of_testBit_eq
  intro i
  rw [Nat.testBit_land]
  cases i with
  | zero =>
    rw [Nat.testBit_zero, Nat.testBit_zero, Nat.testBit_zero]
    have h1 : (2 * a + x) % 2 = x := by omega
    have h2 : (2 * b + y) % 2 = y := by omega
    have h3 : (2 * (a &&& b) + (x &&& y)) % 2 = x &&& y := by omega
    rw [h1, h2, h3]
    interval_cases x <;> interval_cases y <;> decide
  | succ i =>
    rw [Nat.testBit_succ, Nat.testBit_succ, Nat.testBit_succ]
    have h1 : (2 * a + x) / 2 = a := by omega
    have h2 : (2 * b + y) / 2 = b := by omega
    have h3 : (2 * (a &&& b) + (x &&& y)) / 2 = a &&& b := by omega
    rw [h1, h2, h3, Nat.testBit_land]

theorem land_compl_aux : ∀ (w j : Nat), j < 2 ^ w →
    j &&& (2 ^ w - 1 - j) = 0 := by
  intro w
  induction w with
  | zero =>
    intro j hj
    interval_cases j
    decide
  | succ w ih =>
    intro j hj
    have hpow : 2 ^ (w + 1) = 2 * 2 ^ w := by ring
    have hj' : j / 2 < 2 ^ w := by omega
    have hsplit : j = 2 * (j / 2) + j % 2 := by omega
    rw [hsplit] at hj ⊢
    rw [show 2 ^ (w + 1) - 1 - (2 * (j / 2) + j % 2) =
        2 * (2 ^ w - 1 - j / 2) + (1 - j % 2) by omega]
    rw [land_bit _ _ _ _ (by omega) (by omega), ih _ hj']
    have : (j % 2) &&& (1 - j % 2) = 0 := by
      have := Nat.mod_lt j (show 0 < 2 by norm_num)
      interval_cases h : j % 2 <;> decide
    omega

theorem land_neg_of_odd (w m : Nat) (hm : m % 2 = 1) (hlt : m < 2 ^ w) :
    m &&& (2 ^ w - m) = 1 := by
  cases w with
  | zero =>
    simp at hlt
    omega
  | succ w =>
    obtain ⟨j, rfl⟩ : ∃ j, m = 2 * j + 1 := ⟨m / 2, by omega⟩
    have hpow : 2 ^ (w + 1) = 2 * 2 ^ w := by ring
    have hj : j < 2 ^ w := by omega
    rw [show 2 ^ (w + 1) - (2 * j + 1) = 2 * (2 ^ w - 1 - j) + 1 by omega]
    rw [land_bit _ _ _ _ (by omega) (by omega), land_compl_aux w j hj]
    decide

theorem land_mul_pow (s x y : Nat) :
    (2 ^ s * x) &&& (2 ^ s * y) = 2 ^ s * (x &&& y) := by
  apply Nat.eq_of_testBit_eq
  intro i
  rw [Nat.testBit_land,
    show 2 ^ s * x = x <<< s by rw [Nat.shiftLeft_eq]; ring,
    show 2 ^ s * y = y <<< s by rw [Nat.shiftLeft_eq]; ring,
    show 2 ^ s * (x &&& y) = (x &&& y) <<< s by rw [Nat.shiftLeft_eq]; ring,
    Nat.testBit_shiftLeft, Nat.testBit_shiftLeft, Nat.testBit_shiftLeft,
    Nat.testBit_land]
  by_cases h : s ≤ i
  · simp [show i ≥ s from h, Bool.and_left_comm, Bool.and_assoc]
  · simp [show ¬ i ≥ s from h]

theorem land_sub_pow (x k : Nat) (hx : x < 2 ^ 64) (hk : k ≤ 64) :
    x &&& (2 ^ 64 - 2 ^ k) = x / 2 ^ k * 2 ^ k := by
  apply Nat.eq_of_testBit_eq
  intro i
  rw [Nat.testBit_land,
    show x / 2 ^ k * 2 ^ k = (x >>> k) <<< k by
      rw [Nat.shiftLeft_eq, Nat.shiftRight_eq_div_pow],
    Nat.testBit_shiftLeft, Nat.testBit_shiftRight]
  have hmask : Nat.testBit (2 ^ 64 - 2 ^ k) i =
      (decide (i ≥ k) && decide (i < 64)) := by
    rw [show (2:Nat) ^ 64 - 2 ^ k = (2 ^ (64 - k) - 1) <<< k by
        rw [Nat.shiftLeft_eq, Nat.sub_mul, ← Nat.pow_add, one_mul]
        congr 2
        omega,
      Nat.testBit_shiftLeft, Nat.testBit_two_pow_sub_one]
    by_cases h : i ≥ k
    · simp [h]
      omega
    · simp [h]
  rw [hmask]
  by_cases h : k ≤ i
  · have hik : k + (i - k) = i := by omega
    rw [hik]
    by_cases h64 : i < 64
    · simp [show i ≥ k from h, h64]
    · have : Nat.testBit x i = false := by
        apply Nat.testBit_lt_two_pow
        calc x < 2 ^ 64 := hx
          _ ≤ 2 ^ i := Nat.pow_le_pow_right (by norm_num) (by omega)
      simp [this, h64]
  · simp [show ¬ i ≥ k from h]

theorem complement64_pow_sub_one (k : Nat) (hk : k ≤ 64) :
    complement64 (2 ^ k - 1) = 2 ^ 64 - 2 ^ k := by
  have hb : (2:Nat) ^ k ≤ 2 ^ 64 := Nat.pow_le_pow_right (by norm_num) hk
  have hp : (0:Nat) < 2 ^ k := Nat.pos_pow_of_pos _ (by norm_num)
  unfold complement64 MOD64
  set PW := (2:Nat) ^ k
  omega

theorem sub64_pow_one (k : Nat) (hk : k ≤ 64) : sub64 (2 ^ k) 1 = 2 ^ k - 1 := by
  have hb : (2:Nat) ^ k ≤ 2 ^ 64 := Nat.pow_le_pow_right (by norm_num) hk
  have hp : (0:Nat) < 2 ^ k := Nat.pos_pow_of_pos _ (by norm_num)
  unfold sub64 MOD64
  set PW := (2:Nat) ^ k
  omega

theorem napot_mask_eq (a : Nat) (ha : a + 1 < 2 ^ 62) :
    sub64 ((complement64 ((a <<< 2) + 3) &&&
        neg64 (complement64 ((a <<< 2) + 3))) <<< 1) 1 =
      2 ^ (trailingOnes a + 3) - 1 := by
  set t := trailingOnes a with ht
  have hmod : a % 2 ^ (t + 1) = 2 ^ t - 1 := trailingOnes_spec a
  have hdm := Nat.div_add_mod a (2 ^ (t + 1))
  rw [hmod] at hdm
  set q := a / 2 ^ (t + 1) with hq
  have hpt : (2:Nat) ^ (t + 1) = 2 * 2 ^ t := by ring
  have hpos : (0:Nat) < 2 ^ t := Nat.pos_pow_of_pos _ (by norm_num)
  have ha1 : a + 1 = 2 ^ t * (2 * q + 1) := by
    calc a + 1 = 2 ^ (t + 1) * q + (2 ^ t - 1) + 1 := by rw [hdm]
      _ = 2 ^ (t + 1) * q + ((2 ^ t - 1) + 1) := by rw [Nat.add_assoc]
      _ = 2 ^ (t + 1) * q + 2 ^ t := by rw [Nat.sub_add_cancel hpos]
      _ = 2 ^ t * (2 * q + 1) := by rw [hpt]; ring
  have hle : 2 ^ t ≤ a + 1 := by
    rw [ha1]
    exact Nat.le_mul_of_pos_right _ (by omega)
  have ht61 : t ≤ 61 := by
    by_contra hcon
    have : (2:Nat) ^ 62 ≤ 2 ^ t := Nat.pow_le_pow_right (by norm_num) (by omega)
    omega
  have hE : (2:Nat) ^ 62 = 2 ^ t * 2 ^ (62 - t) := by
    rw [← Nat.pow_add]
    congr 1
    omega
  have h2q : 2 * q + 1 < 2 ^ (62 - t) := by
    have h1 : 2 ^ t * (2 * q + 1) < 2 ^ t * 2 ^ (62 - t) := by
      rw [← hE, ← ha1]
      exact ha
    exact Nat.lt_of_mul_lt_mul_left h1
  set m := 2 ^ (62 - t) - (2 * q + 1) with hm
  have hEeven : (2:Nat) ^ (62 - t) % 2 = 0 := by
    obtain ⟨s, hs⟩ : ∃ s, 62 - t = s + 1 := ⟨61 - t, by omega⟩
    rw [hs, pow_succ]
    omega
  have hmodd : m % 2 = 1 := by omega
  have hmlt : m < 2 ^ (62 - t) := by omega
  have hsh : a <<< 2 = 4 * a := by rw [Nat.shiftLeft_eq]; ring
  have hnot : complement64 ((a <<< 2) + 3) = 2 ^ 64 - 4 * a - 4 := by
    rw [hsh]
    unfold complement64 MOD64
    omega
  have hadd : 2 ^ t * (2 * q + 1) + 2 ^ t * m = 2 ^ 62 := by
    rw [← Nat.mul_add, show 2 * q + 1 + m = 2 ^ (62 - t) by omega]
    exact hE.symm
  have hfact : (2:Nat) ^ 64 - 4 * a - 4 = 2 ^ (t + 2) * m := by
    have h1 : 2 ^ (t + 2) * m = 4 * (2 ^ t * m) := by ring
    omega
  have hadd2 : 2 ^ (t + 2) * m + 2 ^ (t + 2) * (2 ^ (62 - t) - m) = 2 ^ 64 := by
    rw [← Nat.mul_add, show m + (2 ^ (62 - t) - m) = 2 ^ (62 - t) by omega,
      ← Nat.pow_add]
    congr 1
    omega
  have hneg : neg64 (2 ^ (t + 2) * m) = 2 ^ (t + 2) * (2 ^ (62 - t) - m) := by
    unfold neg64 MOD64
    omega
  have hland : m &&& (2 ^ (62 - t) - m) = 1 := land_neg_of_odd _ _ hmodd hmlt
  rw [hnot, hfact, hneg, land_mul_pow, hland, Nat.mul_one,
    show (2:Nat) ^ (t + 2) <<< 1 = 2 ^ (t + 3) by rw [Nat.shiftLeft_eq]; ring]
  exact sub64_pow_one (t + 3) (by omega)

theorem napot_low_eq (a : Nat) (ha : a + 1 < 2 ^ 62) :
    (a <<< 2) &&& complement64 (2 ^ (trailingOnes a + 3) - 1) =
      2 ^ (trailingOnes a + 3) * (a / 2 ^ (trailingOnes a + 1)) := by
  set t := trailingOnes a with ht
  have hmod : a % 2 ^ (t + 1) = 2 ^ t - 1 := trailingOnes_spec a
  have hdm := Nat.div_add_mod a (2 ^ (t + 1))
  rw [hmod] at hdm
  set q := a / 2 ^ (t + 1) with hq
  have hpos : (0:Nat) < 2 ^ t := Nat.pos_pow_of_pos _ (by norm_num)
  have hle : 2 ^ t ≤ a + 1 := by
    have : 2 ^ t - 1 ≤ a := by omega
    omega
  have ht61 : t ≤ 61 := by
    by_contra hcon
    have : (2:Nat) ^ 62 ≤ 2 ^ t := Nat.pow_le_pow_right (by norm_num) (by omega)
    omega
  have hb : (2:Nat) ^ (t + 3) ≤ 2 ^ 64 := Nat.pow_le_pow_right (by norm_num) (by omega)
  have hsh : a <<< 2 = 4 * a := by rw [Nat.shiftLeft_eq]; ring
  have hc : complement64 (2 ^ (t + 3) - 1) = 2 ^ 64 - 2 ^ (t + 3) :=
    complement64_pow_sub_one (t + 3) (by omega)
  rw [hsh, hc, land_sub_pow (4 * a) (t + 3) (by omega) (by omega)]
  have h1 : 2 ^ (t + 3) * q = 4 * (2 ^ (t + 1) * q) := by ring
  have h2 : (2:Nat) ^ (t + 2) = 4 * 2 ^ t := by ring
  have h3 : (2:Nat) ^ (t + 3) = 2 * 2 ^ (t + 2) := by ring
  have h4a : 4 * a = 2 ^ (t + 3) * q + (2 ^ (t + 2) - 4) := by omega
  rw [h4a, Nat.mul_add_div (by positivity),
    Nat.div_eq_of_lt (by omega), Nat.add_zero]
  ring


/-- Concrete PMP state for the C9 example: entry 0 is NAPOT with
    `pmpaddr = 0x8000_0000 | 0x1F`. -/
def napotExSt : PmpSt :=
  { cfg := fun i => if i = 0 then { priv := 1, mode := .NAPOT, L := false } else {}
    pmpaddr := fun i => if i = 0 then 0x8000001F else 0 }

/-- Claim C9: a PMP entry in NAPOT mode decodes to the naturally aligned
    power-of-two range determined by the trailing one bits of the effective
    address: the low bound is the address (shifted left by 2) aligned down to
    `2^(t+3)` where `t` counts the trailing ones, the high bound is low plus
    `2^(t+3) - 1`; in particular `pmpaddr = 0x8000001F` decodes to exactly
    `[0x2_0000_0000, 0x2_0000_00FF]`. -/
theorem claim_C9_NAPOTBounds (st : PmpSt) (index : Nat)
    (hmode : (st.cfg index).mode = .NAPOT)
    (ha : getEffectivePMPAddr st index + 1 < 2 ^ 62) :
    (getPMPEntryBounds st index).1 =
      2 ^ (trailingOnes (getEffectivePMPAddr st index) + 3) *
        (getEffectivePMPAddr st index /
          2 ^ (trailingOnes (getEffectivePMPAddr st index) + 1)) ∧
    (getPMPEntryBounds st index).2 =
      (getPMPEntryBounds st index).1 +
        2 ^ (trailingOnes (getEffectivePMPAddr st index) + 3) - 1 ∧
    getPMPEntryBounds napotExSt 0 = (0x200000000, 0x2000000FF) := by
  set a := getEffectivePMPAddr st index with haa
  have hbounds : getPMPEntryBounds st index =
      ((a <<< 2) &&& complement64 (sub64 ((complement64 ((a <<< 2) + 3) &&&
          neg64 (complement64 ((a <<< 2) + 3))) <<< 1) 1),
       ((a <<< 2) &&& complement64 (sub64 ((complement64 ((a <<< 2) + 3) &&&
          neg64 (complement64 ((a <<< 2) + 3))) <<< 1) 1)) |||
         sub64 ((complement64 ((a <<< 2) + 3) &&&
          neg64 (complement64 ((a <<< 2) + 3))) <<< 1) 1) := by
    simp [getPMPEntryBounds, hmode]
  rw [hbounds]
  have hpos : (0:Nat) < 2 ^ (trailingOnes a + 3) :=
    Nat.pos_pow_of_pos _ (by norm_num)
  refine ⟨?_, ?_, by decide⟩
  · simp only
    rw [napot_mask_eq a ha, napot_low_eq a ha]
  · simp only
    rw [napot_mask_eq a ha, napot_low_eq a ha,
      ← Nat.mul_add_lt_is_or (by omega) (a / 2 ^ (trailingOnes a + 1))]
    omega


/-- Claim C8: when a PMP region matches the physical address during
    refinement, an M-mode access with the region unlocked (L=0) is granted
    full R/W/X regardless of the region's `priv` field; a locked region
    (L=1) imposes its `priv` field even on M mode; and any non-M-mode access
    always gets exactly the region's `priv` field. -/
theorem claim_C8_refinePMP (st : PmpSt) (mode : Mode) (r : PmpRange)
    (PA index : Nat)
    (hact : getPMPRegionActive st (st.cfg index) index = true)
    (hb : (getPMPEntryBounds st index).1 ≤ (getPMPEntryBounds st index).2)
    (hin1 : (getPMPEntryBounds st index).1 ≤ PA)
    (hin2 : PA ≤ (getPMPEntryBounds st index).2) :
    (mode = .M → (st.cfg index).L = false →
      (refinePMPRegionRange st mode r PA index).priv = MEM_PRIV_RWX) ∧
    ((st.cfg index).L = true →
      (refinePMPRegionRange st mode r PA index).priv = (st.cfg index).priv) ∧
    (mode ≠ .M →
      (refinePMPRegionRange st mode r PA index).priv = (st.cfg index).priv) := by
  have hnb : ¬ (getPMPEntryBounds st index).1 > (getPMPEntryBounds st index).2 :=
    not_lt.mpr hb
  refine ⟨?_, ?_, ?_⟩
  · rintro rfl hL
    simp [refinePMPRegionRange, hact, hnb, hin1, hin2, hL]
  · intro hL
    simp [refinePMPRegionRange, hact, hnb, hin1, hin2, hL]
  · intro hM
    simp [refinePMPRegionRange, hact, hnb, hin1, hin2, hM]

/-- Claim C10: a PMP address-register write returns the new effective
    address exactly when the index is valid and the grain- and width-masked
    new value differs from the stored value; when the masked value equals
    the stored value or the index is out of range it returns 0, leaves the
    state unchanged and performs no invalidation. -/
theorem claim_C10_writePMPAddr (st : PmpSt) (index newValue : Nat) :
    (validPMPAddr st index = true →
      st.pmpaddr index ≠ maskPMPAddrWrite st newValue →
      (riscvVMWritePMPAddr st index newValue).result =
        getEffectivePMPAddr (riscvVMWritePMPAddr st index newValue).st index) ∧
    ((validPMPAddr st index = false ∨
      st.pmpaddr index = maskPMPAddrWrite st newValue) →
      (riscvVMWritePMPAddr st index newValue).result = 0 ∧
      (riscvVMWritePMPAddr st index newValue).st = st ∧
      (riscvVMWritePMPAddr st index newValue).invalidations = []) := by
  constructor
  · intro hv hne
    simp only [riscvVMWritePMPAddr]
    rw [if_pos (by simp [hv, hne])]
    split
    · rfl
    · split <;> rfl
  · rintro (hv | heq)
    · simp [riscvVMWritePMPAddr, hv]
    · simp [riscvVMWritePMPAddr, heq]

theorem claim_C9_witness :
    (napotExSt.cfg 0).mode = PmpMode.NAPOT ∧
    getEffectivePMPAddr napotExSt 0 + 1 < 2 ^ 62 ∧
    getPMPEntryBounds napotExSt 0 = (0x200000000, 0x2000000FF) :=
  ⟨by decide, by decide,
    (claim_C9_NAPOTBounds napotExSt 0 (by decide) (by decide)).2.2⟩

theorem claim_C8_witness :
    getPMPRegionActive napotExSt (napotExSt.cfg 0) 0 = true ∧
    (getPMPEntryBounds napotExSt 0).1 ≤ (getPMPEntryBounds napotExSt 0).2 ∧
    (getPMPEntryBounds napotExSt 0).1 ≤ 0x200000010 ∧
    0x200000010 ≤ (getPMPEntryBounds napotExSt 0).2 ∧
    (refinePMPRegionRange napotExSt .M ⟨0, 2 ^ 64 - 1, 7⟩ 0x200000010 0).priv =
      MEM_PRIV_RWX :=
  ⟨by decide, by decide, by decide, by decide,
    (claim_C8_refinePMP napotExSt .M ⟨0, 2 ^ 64 - 1, 7⟩ 0x200000010 0
      (by decide) (by decide) (by decide) (by decide)).1 rfl rfl⟩

theorem claim_C10_witness :
    validPMPAddr napotExSt 0 = true ∧
    napotExSt.pmpaddr 0 ≠ maskPMPAddrWrite napotExSt 5 ∧
    (riscvVMWritePMPAddr napotExSt 0 5).result =
      getEffectivePMPAddr (riscvVMWritePMPAddr napotExSt 0 5).st 0 :=
  ⟨by decide, by decide,
    (claim_C10_writePMPAddr napotExSt 0 5).1 (by decide) (by decide)⟩

end RiscvVM
